import Mathlib

/-!
Shallow embedding of the `properties` Go package: the typed property model
(`property.go`), the property factory `FromAny` / `FromText` (`factory.go`),
the mutable property collection `Default` (`properties.go`) and the YAML
front-matter extraction `DefaultPropertiesFactory.fromYAMLFrontMatter`.

External collaborators — the `dateparse` date parser and the YAML decoder —
are modelled as explicit function parameters, and the caller-supplied hooks
(custom creators, after-create hooks, add policies) as plain functions.
Go `context.Context` arguments carry no information in this package and are
dropped.  Byte buffers are modelled as `List Char` (the package only ever
inspects them bytewise).
-/

namespace properties

/-- Abstract carrier for Go `time.Time` values.  Only construction and
equality of timestamps matter to this package, so the carrier is opaque
data. -/
structure GoTime where
  stamp : Int
deriving DecidableEq

/-- A Go `interface\x7b\x7d` value as seen by the factory's type switch: the six
dynamic types the switch recognizes (`string`, `[]string`, `time.Time`,
`bool`, `int`, `int64`), the extra integer widths it does not recognize,
and `other` for arbitrary unknown dynamic types, carrying the type's
name (Go verb `%T`) and its rendering (Go verb `%+v`). -/
inductive GoValue where
  | str (s : String)
  | strList (l : List String)
  | time (t : GoTime)
  | bool (b : Bool)
  | int (n : Int)
  | int64 (n : Int)
  | int8 (n : Int)
  | int16 (n : Int)
  | int32 (n : Int)
  | other (tyName : String) (display : String)
deriving DecidableEq

/-- The Go dynamic type name of a value, as the `%T` verb prints it. -/
def goTypeName : GoValue → String
  | .str _ => "string"
  | .strList _ => "[]string"
  | .time _ => "time.Time"
  | .bool _ => "bool"
  | .int _ => "int"
  | .int64 _ => "int64"
  | .int8 _ => "int8"
  | .int16 _ => "int16"
  | .int32 _ => "int32"
  | .other tyName _ => tyName

/-- Rendering of a value by the `%+v` verb.  In the source this rendering is
only ever observed in the unknown-type error message, i.e. for the integer
widths outside the type switch and for `other` values; the arms for the six
recognized types are unreachable from that message. -/
def goPlusV : GoValue → String
  | .str s => s
  | .strList l => "[" ++ String.intercalate " " l ++ "]"
  | .time _ => "(time.Time)"
  | .bool b => if b then "true" else "false"
  | .int n => toString n
  | .int64 n => toString n
  | .int8 n => toString n
  | .int16 n => toString n
  | .int32 n => toString n
  | .other _ display => display

/-- Quoting by the `%q` verb; exact for names free of escape characters,
which is the only way names are used here. -/
def goQuote (s : String) : String := "\"" ++ s ++ "\""

/-- `PropertyName` is the name of a property (a Go `string`). -/
abbrev PropertyName := String

/-- The closed set of property variants of `property.go`, one constructor
per `Default*Property` struct implementing the `Property` interface.
(The resource/URL variant of `resource.go` is out of the package core and
never produced by the factory.) -/
inductive Property where
  | DefaultTextProperty (PropName : PropertyName) (Text : String)
  | DefaultTextListProperty (PropName : PropertyName) (Slice : List String)
  | DefaultFlagProperty (PropName : PropertyName) (Flag : Bool)
  | DefaultDateTimeProperty (PropName : PropertyName) (Time : GoTime)
  | DefaultCardinalProperty (PropName : PropertyName) (Number : Int)
deriving DecidableEq

/-- `Name` returns the property name (each variant's `Name` method). -/
def Property.Name : Property → PropertyName
  | .DefaultTextProperty n _ => n
  | .DefaultTextListProperty n _ => n
  | .DefaultFlagProperty n _ => n
  | .DefaultDateTimeProperty n _ => n
  | .DefaultCardinalProperty n _ => n

/-- `AnyValue` returns the stored value as an untyped Go value (each
variant's `AnyValue` method returns its value field; the cardinal variant
stores an `int64`). -/
def Property.AnyValue : Property → GoValue
  | .DefaultTextProperty _ s => .str s
  | .DefaultTextListProperty _ l => .strList l
  | .DefaultFlagProperty _ b => .bool b
  | .DefaultDateTimeProperty _ t => .time t
  | .DefaultCardinalProperty _ n => .int64 n

/-- The Go result triple `(Property, bool, error)`: the property (a nil
interface value is `none`), the accepted flag, and the error (an absent
error is `none`, a present one carries its message). -/
abbrev FactoryResult := Option Property × Bool × Option String

/-- One entry of a variadic `options ...interface\x7b\x7d` bag, tagged by the
dynamic type the source's type assertions test for: a `CustomCreatorFunc`,
a `CustomCreatorHandler` (its `FromAny` method), an `AddPropertyPolicy`
(its `AllowAdd` method), an `AddPropertyEvent`, or anything else.  The
caller-supplied behaviors are opaque functions; `context.Context` and the
forwarded option bag are dropped from their modelled signatures. -/
inductive FactoryOption where
  | customCreatorFunc (f : String → GoValue → FactoryResult)
  | customCreatorHandler (f : String → GoValue → FactoryResult)
  | addPolicy (p : Property → Property × Bool × Option String)
  | addEvent
  | otherOption

/-- `DefaultPropertyFactory` with its four optional hook fields. -/
structure DefaultPropertyFactory where
  CustomCreatorFunc : Option (String → GoValue → FactoryResult) := none
  CustomCreator : Option (String → GoValue → FactoryResult) := none
  AfterCreateHookFunc : Option (Property → FactoryResult) := none
  AfterCreate : Option (Property → FactoryResult) := none

/-- The factory with none of the four hooks configured (the package-level
`ThePropertyFactory` instance). -/
def ThePropertyFactory : DefaultPropertyFactory := {}

/-- `afterSuccessfulCreate`: the `AfterCreate` handler overrides the
`AfterCreateHookFunc`; with neither configured the fresh property is
returned accepted and error-free. -/
def DefaultPropertyFactory.afterSuccessfulCreate (f : DefaultPropertyFactory)
    (property : Property) (_options : List FactoryOption) : FactoryResult :=
  match f.AfterCreate with
  | some h => h property
  | none =>
    match f.AfterCreateHookFunc with
    | some h => h property
    | none => (some property, true, none)

/-- The option scan of `handleUnknownType`: the first option that type
asserts as a `CustomCreatorFunc` or as a `CustomCreatorHandler` wins. -/
def findCreator : List FactoryOption → Option (String → GoValue → FactoryResult)
  | [] => none
  | .customCreatorFunc g :: _ => some g
  | .customCreatorHandler g :: _ => some g
  | _ :: rest => findCreator rest

/-- The unknown-type error message built by `handleUnknownType`
(`fmt.Errorf` with verbs `%q`, `%T`, `%+v`). -/
def unknownTypeErr (name : String) (v : GoValue) : String :=
  "Unable to add " ++ goQuote name ++ " property, type " ++ goTypeName v
    ++ " is not known: " ++ goPlusV v

/-- `handleUnknownType`: per-call creators from the option bag first, then
the factory-level `CustomCreator` handler, then the factory-level
`CustomCreatorFunc`, otherwise the unknown-type error. -/
def DefaultPropertyFactory.handleUnknownType (f : DefaultPropertyFactory)
    (name : String) (value : GoValue) (options : List FactoryOption) : FactoryResult :=
  match findCreator options with
  | some g => g name value
  | none =>
    match f.CustomCreator with
    | some h => h name value
    | none =>
      match f.CustomCreatorFunc with
      | some g => g name value
      | none => (none, false, some (unknownTypeErr name value))

/-- `FromAny`: the type switch of `factory.go` lines 65-82.  The six
recognized dynamic types build their property variant (a Go `int` is
converted by `int64(value)`, the identity on the 64-bit platforms the
package targets) and pass through `afterSuccessfulCreate`; everything
else goes to `handleUnknownType`. -/
def DefaultPropertyFactory.FromAny (f : DefaultPropertyFactory)
    (name : String) (v : GoValue) (options : List FactoryOption) : FactoryResult :=
  match v with
  | .str value => f.afterSuccessfulCreate (.DefaultTextProperty name value) options
  | .strList value => f.afterSuccessfulCreate (.DefaultTextListProperty name value) options
  | .time value => f.afterSuccessfulCreate (.DefaultDateTimeProperty name value) options
  | .bool value => f.afterSuccessfulCreate (.DefaultFlagProperty name value) options
  | .int value => f.afterSuccessfulCreate (.DefaultCardinalProperty name value) options
  | .int64 value => f.afterSuccessfulCreate (.DefaultCardinalProperty name value) options
  | _ => f.handleUnknownType name v options

/-- `strconv.ParseBool`: the exact literal families it accepts. -/
def goParseBool (s : String) : Option Bool :=
  if s = "1" ∨ s = "t" ∨ s = "T" ∨ s = "TRUE" ∨ s = "true" ∨ s = "True" then some true
  else if s = "0" ∨ s = "f" ∨ s = "F" ∨ s = "FALSE" ∨ s = "false" ∨ s = "False" then some false
  else none

/-- Base-10 digit run: `none` on an empty run or any non-digit byte. -/
def digitsVal (ds : List Char) : Option Nat :=
  if ds = [] then none
  else
    ds.foldl
      (fun acc c =>
        match acc with
        | none => none
        | some n =>
            if 48 ≤ c.toNat ∧ c.toNat ≤ 57 then some (n * 10 + (c.toNat - 48)) else none)
      (some 0)

/-- `strconv.ParseInt(s, 10, 64)`: optional single leading sign, a nonempty
run of base-10 digits, and the signed 64-bit range check; any violation is
an error (`none`), in particular the out-of-range case (Go returns the
clamped value *with* `ErrRange`, so callers checking `err == nil` see a
failure). -/
def goParseInt64 (s : String) : Option Int :=
  match s.toList with
  | [] => none
  | c :: cs =>
    let neg := c = '-'
    let ds := if c = '-' ∨ c = '+' then cs else c :: cs
    match digitsVal ds with
    | none => none
    | some n =>
      if neg then (if n ≤ 2 ^ 63 then some (-(n : Int)) else none)
      else (if n < 2 ^ 63 then some (n : Int) else none)

/-- `FromText` (`factory.go` lines 85-99): smart parsing in the source's
order — boolean literal, then the date parser, then base-10 64-bit
integer, then plain text — each stage delegating to `FromAny`.
`parseAny` models the external `dateparse.ParseAny` collaborator: it
succeeds exactly on date/times written in a commonly recognized textual
format. -/
def DefaultPropertyFactory.FromText (f : DefaultPropertyFactory)
    (parseAny : String → Option GoTime)
    (name : String) (value : String) (options : List FactoryOption) : FactoryResult :=
  match goParseBool value with
  | some flag => f.FromAny name (.bool flag) options
  | none =>
    match parseAny value with
    | some dateTime => f.FromAny name (.time dateTime) options
    | none =>
      match goParseInt64 value with
      | some number => f.FromAny name (.int64 number) options
      | none => f.FromAny name (.str value) options

/-- The dynamic types the `FromAny` switch recognizes. -/
def isSupported : GoValue → Bool
  | .str _ => true
  | .strList _ => true
  | .time _ => true
  | .bool _ => true
  | .int _ => true
  | .int64 _ => true
  | _ => false

/-- The canonical dynamic type of each of the five primitive property
kinds (text, text list, flag, cardinal, date-time); a cardinal is carried
as `int64`. -/
def isCanonicalKind : GoValue → Bool
  | .str _ => true
  | .strList _ => true
  | .bool _ => true
  | .int64 _ => true
  | .time _ => true
  | _ => false

/-! ## The mutable property collection (`properties.go`) -/

/-- `AllowAddFunc` as passed to `AddChecked`/`AddMap` (context dropped). -/
abbrev AllowAddFunc := String → GoValue → Option Property → Option Property × Bool × Option String

/-- `AllowAddTextFunc` as passed to `AddParsedChecked`/`AddTextMap`. -/
abbrev AllowAddTextFunc := String → String → Option Property → Option Property × Bool × Option String

/-- Modulus of Go's 64-bit `uint`, the type of the size counter. -/
def goUintMod : Nat := 2 ^ 64

/-- `sync.Map.Store` on the association-list view of the backing map:
replace the entry under an existing key, otherwise append a new entry. -/
def storeEntry : List (String × Property) → String → Property → List (String × Property)
  | [], k, p => [(k, p)]
  | (k', p') :: rest, k, p =>
      if k' = k then (k, p) :: rest else (k', p') :: storeEntry rest k p

/-- `sync.Map.Load` on the association-list view. -/
def loadEntry : List (String × Property) → String → Option Property
  | [], _ => none
  | (k', p') :: rest, k => if k' = k then some p' else loadEntry rest k

/-- The `Default` collection: the property factory, the `sync.Map`
contents, the separately maintained `uint` size counter, the optional add
policy (`AllowAdd`, context and options dropped) and add event.  The event
callback returns nothing, so the state records the properties it was
notified of in `eventLog`. -/
structure Default where
  pf : DefaultPropertyFactory
  entries : List (String × Property) := []
  syncMapSize : Nat := 0
  addPolicy : Option (Property → Property × Bool × Option String) := none
  hasAddEvent : Bool := false
  eventLog : List Property := []

/-- `newDefaultProperties`: scan the option bag; each `AddPropertyPolicy`
or `AddPropertyEvent` found overwrites the previous one, so the last one
in the bag wins. -/
def newDefaultProperties (pf : DefaultPropertyFactory)
    (options : List FactoryOption) : Default :=
  options.foldl
    (fun st o =>
      match o with
      | .addPolicy p => { st with addPolicy := some p }
      | .addEvent => { st with hasAddEvent := true }
      | _ => st)
    { pf := pf }

/-- The store/increment/notify tail of `AddProperty` (lines 185-192): the
final property is stored under its name, the size counter is incremented
unconditionally — also when the store overwrote an existing entry — and a
configured add event is notified. -/
def Default.storeAndNotify (st : Default) (finalProp : Property) : Default × FactoryResult :=
  ({ st with
      entries := storeEntry st.entries finalProp.Name finalProp
      syncMapSize := (st.syncMapSize + 1) % goUintMod
      eventLog := if st.hasAddEvent then st.eventLog ++ [finalProp] else st.eventLog },
   (some finalProp, true, none))

/-- `AddProperty`: the add policy, when configured, may error (the given
property is returned with the error), veto (its substitute is returned,
not accepted, no error, nothing stored, no event) or admit a possibly
substituted property, which is then stored. -/
def Default.AddProperty (st : Default) (givenProp : Property) : Default × FactoryResult :=
  match st.addPolicy with
  | some policy =>
    match policy givenProp with
    | (finalProp, add, err) =>
      match err with
      | some e => (st, (some givenProp, false, some e))
      | none =>
        if add = false then (st, (some finalProp, false, none))
        else st.storeAndNotify finalProp
  | none => st.storeAndNotify givenProp

/-- `Size` returns the size counter. -/
def Default.Size (st : Default) : Nat := st.syncMapSize

/-- `Named` returns the property stored under the name, if any. -/
def Default.Named (st : Default) (name : PropertyName) : Option Property :=
  loadEntry st.entries name

/-- `Delete`: remove the named entry when present and decrement the
counter; report whether something was removed. -/
def Default.Delete (st : Default) (name : PropertyName) : Default × Bool × Option String :=
  match loadEntry st.entries name with
  | none => (st, false, none)
  | some _ =>
      ({ st with
          entries := st.entries.filter (fun e => decide (e.1 ≠ name))
          syncMapSize := st.syncMapSize - 1 },
       true, none)

/-- `AddChecked` (lines 144-158).  A failed construction returns the error
with a nil property; otherwise the allow function, when given, replaces
property and flag (its error is dropped by the source: the accepted branch
returns `AddProperty`'s triple and the rejected branch returns a literal
nil error).  Calling `AddProperty` on a nil property would dereference a
nil interface in Go, modelled as `none` (a panic). -/
def Default.AddChecked (st : Default) (name : String) (value : GoValue)
    (allow : Option AllowAddFunc) (options : List FactoryOption) :
    Option (Default × FactoryResult) :=
  match st.pf.FromAny name value options with
  | (prop0, ok0, err0) =>
    match err0 with
    | some e => some (st, (none, false, some e))
    | none =>
      match (match allow with
             | some a => a name value prop0
             | none => (prop0, ok0, (none : Option String))) with
      | (prop, ok, _allowErr) =>
        if ok = true then
          match prop with
          | some pr => some (st.AddProperty pr)
          | none => none
        else some (st, (prop, ok, none))

/-- `AddParsedChecked` (lines 127-141): as `AddChecked` but constructing
through `FromText`; `parseAny` models the external date parser used by
`FromText`. -/
def Default.AddParsedChecked (st : Default) (parseAny : String → Option GoTime)
    (name : String) (value : String)
    (allow : Option AllowAddTextFunc) (options : List FactoryOption) :
    Option (Default × FactoryResult) :=
  match st.pf.FromText parseAny name value options with
  | (prop0, ok0, err0) =>
    match err0 with
    | some e => some (st, (none, false, some e))
    | none =>
      match (match allow with
             | some a => a name value prop0
             | none => (prop0, ok0, (none : Option String))) with
      | (prop, ok, _allowErr) =>
        if ok = true then
          match prop with
          | some pr => some (st.AddProperty pr)
          | none => none
        else some (st, (prop, ok, none))

/-- `Add` is `AddChecked` with a nil allow function. -/
def Default.Add (st : Default) (name : String) (value : GoValue)
    (options : List FactoryOption) : Option (Default × FactoryResult) :=
  st.AddChecked name value none options

/-- `AddParsed` is `AddParsedChecked` with a nil allow function. -/
def Default.AddParsed (st : Default) (parseAny : String → Option GoTime)
    (name : String) (value : String)
    (options : List FactoryOption) : Option (Default × FactoryResult) :=
  st.AddParsedChecked parseAny name value none options

/-- The `AddMap` loop: per entry `AddChecked`; the first error is returned
with the count reached so far (fail fast, no rollback), an accepted entry
increments the count.  Go map iteration order is unspecified; the entries
are modelled as the list in the order given. -/
def addMapLoop (allow : Option AllowAddFunc) (options : List FactoryOption) :
    Default → List (String × GoValue) → Nat → Option (Default × Nat × Option String)
  | st, [], count => some (st, count, none)
  | st, (name, value) :: rest, count =>
    match st.AddChecked name value allow options with
    | none => none
    | some (st', (_, ok, err)) =>
      match err with
      | some e => some (st', count, some e)
      | none => addMapLoop allow options st' rest (if ok then count + 1 else count)

/-- `AddMap` (lines 82-99); the nil-map guard of the source is outside the
model (a Lean list cannot be nil). -/
def Default.AddMap (st : Default) (items : List (String × GoValue))
    (allow : Option AllowAddFunc) (options : List FactoryOption) :
    Option (Default × Nat × Option String) :=
  addMapLoop allow options st items 0

/-- The `AddTextMap` loop: per entry `AddParsedChecked`, same fail-fast
counting as `addMapLoop`. -/
def addTextMapLoop (parseAny : String → Option GoTime)
    (allow : Option AllowAddTextFunc) (options : List FactoryOption) :
    Default → List (String × String) → Nat → Option (Default × Nat × Option String)
  | st, [], count => some (st, count, none)
  | st, (name, value) :: rest, count =>
    match st.AddParsedChecked parseAny name value allow options with
    | none => none
    | some (st', (_, ok, err)) =>
      match err with
      | some e => some (st', count, some e)
      | none => addTextMapLoop parseAny allow options st' rest (if ok then count + 1 else count)

/-- `AddTextMap` (lines 107-124). -/
def Default.AddTextMap (st : Default) (parseAny : String → Option GoTime)
    (items : List (String × String))
    (allow : Option AllowAddTextFunc) (options : List FactoryOption) :
    Option (Default × Nat × Option String) :=
  addTextMapLoop parseAny allow options st items 0

/-! ## Front-matter extraction (`factory.go` lines 131-236) -/

/-- `strings.TrimSpace` / `bytes.TrimSpace` restricted to the ASCII
whitespace class (space, tab, newline, vertical tab, form feed, carriage
return); the non-ASCII Unicode space classes do not occur in this
package's delimiters. -/
def isSpace (c : Char) : Bool :=
  c = ' ' ∨ c = '\t' ∨ c = '\n' ∨ c = '\x0b' ∨ c = '\x0c' ∨ c = '\r'

/-- Trim leading and trailing whitespace. -/
def trimSpace (l : List Char) : List Char :=
  ((l.dropWhile isSpace).reverse.dropWhile isSpace).reverse

/-- The three-byte front-matter delimiter. -/
def delimLine : List Char := ['-', '-', '-']

/-- The `buf.ReadString` loop of `fromYAMLFrontMatter` (lines 180-202),
one character at a time: `acc` is the current line read so far (reversed),
`pos` the bytes consumed so far, i.e. Go's `len(b) - buf.Len()`.  A
completed line (on reading a newline, which belongs to the line) whose
trimmed content is the delimiter opens the region (recording the position
after the line as `yamlStartIndex`) or, when already inside, closes it
(recording the position after the line as `yamlEndIndex` and stopping).
End of input (`io.EOF`) stops the loop without examining the pending
partial line, leaving `yamlEndIndex` at its zero value. -/
def scanAux : List Char → List Char → Bool → Nat → Nat → Bool × Nat × Nat
  | [], _, insideFrontMatter, yamlStartIndex, _ => (insideFrontMatter, yamlStartIndex, 0)
  | c :: cs, acc, insideFrontMatter, yamlStartIndex, pos =>
    if c = '\n' then
      if trimSpace ((c :: acc).reverse) ≠ delimLine then
        scanAux cs [] insideFrontMatter yamlStartIndex (pos + 1)
      else if insideFrontMatter = false then
        scanAux cs [] true (pos + 1) (pos + 1)
      else (true, yamlStartIndex, pos + 1)
    else scanAux cs (c :: acc) insideFrontMatter yamlStartIndex (pos + 1)

/-- The delimiter scan over a whole buffer: the loop's
`(insideFrontMatter, yamlStartIndex, yamlEndIndex)` at exit. -/
def fmScan (b : List Char) : Bool × Nat × Nat :=
  scanAux b [] false 0 0

/-- Go slicing `b[s:e]`. -/
def goSlice (b : List Char) (s e : Nat) : List Char :=
  (b.drop s).take (e - s)

/-- The byte range `b[yamlStartIndex:yamlEndIndex]` that
`fromYAMLFrontMatter` hands to the YAML decoder, when both delimiters were
found. -/
def yamlRegion (b : List Char) : Option (List Char) :=
  match fmScan b with
  | (insideFrontMatter, yamlStartIndex, yamlEndIndex) =>
    if insideFrontMatter = true ∧ yamlEndIndex ≠ 0 then
      some (goSlice b yamlStartIndex yamlEndIndex)
    else none

/-- The malformed-front-matter message of line 210 (`fmt.Errorf` with `%v`
verbs). -/
def goFrontMatterErr (insideFrontMatter : Bool) (yamlStartIndex yamlEndIndex : Nat) : String :=
  "Unexplained front matter parser error; insideFrontMatter: "
    ++ (if insideFrontMatter then "true" else "false")
    ++ ", yamlStartIndex: " ++ toString yamlStartIndex
    ++ ", yamlEndIndex: " ++ toString yamlEndIndex

/-- `DefaultPropertiesFactory` wraps the property factory it builds
collections around. -/
structure DefaultPropertiesFactory where
  PropFactory : DefaultPropertyFactory

/-- The package-level `ThePropertiesFactory` instance. -/
def ThePropertiesFactory : DefaultPropertiesFactory :=
  { PropFactory := ThePropertyFactory }

/-- `EmptyMutable` returns a fresh collection configured from the option
bag. -/
def DefaultPropertiesFactory.EmptyMutable (f : DefaultPropertiesFactory)
    (options : List FactoryOption) : Default :=
  newDefaultProperties f.PropFactory options

/-- `fromStringMap` (lines 162-170): an empty mutable collection filled by
`AddMap`; the collection is returned alongside a bulk error (the nil-map
guard is outside the model). -/
def DefaultPropertiesFactory.fromStringMap (f : DefaultPropertiesFactory)
    (items : List (String × GoValue)) (allow : Option AllowAddFunc)
    (options : List FactoryOption) : Option (Default × Nat × Option String) :=
  (f.EmptyMutable options).AddMap items allow options

/-- The front-matter extraction result
`([]byte, MutableProperties, uint, error)`; a nil byte slice or nil
collection is `none`.  The whole result is wrapped in `Option`, `none`
standing for a Go runtime panic (only reachable through caller-supplied
hooks that return a nil property as accepted). -/
abbrev FMResult := Option (List Char) × Option Default × Nat × Option String

/-- `fromYAMLFrontMatter` (lines 173-235).  After the delimiter scan:
no opening delimiter — the whole input is the body; an unclosed region —
the diagnostic error; otherwise the region is decoded and bulk-inserted.
`yamlStrMap`/`yamlAnyMap` model `yaml.Unmarshal` into `map[string]string`
and `map[string]interface\x7b\x7d` (`none` = decode error, whose failure the
source swallows into a nil-error, nil-collection return).  In both decode
branches the source assigns the bulk-insert error to a variable that
shadows the function-level `err` (`err :=` at lines 219/227 against
`count, err = ...` / `props, count, err = ...`), so the error returned at
line 234 is the never-assigned outer one: the bulk-insert error is
dropped and the trimmed body, the partially filled collection and the
partial count are returned with a nil error. -/
def DefaultPropertiesFactory.fromYAMLFrontMatter (f : DefaultPropertiesFactory)
    (parseAny : String → Option GoTime)
    (yamlStrMap : List Char → Option (List (String × String)))
    (yamlAnyMap : List Char → Option (List (String × GoValue)))
    (b : List Char) (smartParseFM : Bool)
    (allow : Option AllowAddFunc) (allowText : Option AllowAddTextFunc)
    (options : List FactoryOption) : Option FMResult :=
  match fmScan b with
  | (insideFrontMatter, yamlStartIndex, yamlEndIndex) =>
    if insideFrontMatter = false then some (some b, none, 0, none)
    else if yamlEndIndex = 0 then
      some (none, none, 0,
        some (goFrontMatterErr insideFrontMatter yamlStartIndex yamlEndIndex))
    else
      if smartParseFM then
        match yamlStrMap (goSlice b yamlStartIndex yamlEndIndex) with
        | none => some (none, none, 0, none)
        | some items =>
          match (f.EmptyMutable options).AddTextMap parseAny items allowText options with
          | none => none
          | some (props, count, _shadowedErr) =>
            some (some (trimSpace (b.drop yamlEndIndex)), some props, count, none)
      else
        match yamlAnyMap (goSlice b yamlStartIndex yamlEndIndex) with
        | none => some (none, none, 0, none)
        | some items =>
          match f.fromStringMap items allow options with
          | none => none
          | some (props, count, _shadowedErr) =>
            some (some (trimSpace (b.drop yamlEndIndex)), some props, count, none)

/-- `MutableFromFrontMatter` delegates to `fromYAMLFrontMatter`. -/
def DefaultPropertiesFactory.MutableFromFrontMatter (f : DefaultPropertiesFactory)
    (parseAny : String → Option GoTime)
    (yamlStrMap : List Char → Option (List (String × String)))
    (yamlAnyMap : List Char → Option (List (String × GoValue)))
    (content : List Char) (smartParseFM : Bool)
    (allow : Option AllowAddFunc) (allowText : Option AllowAddTextFunc)
    (options : List FactoryOption) : Option FMResult :=
  f.fromYAMLFrontMatter parseAny yamlStrMap yamlAnyMap content smartParseFM allow allowText options

/-! ## Line-structure predicates for the scan -/

/-- A buffer that is a sequence of complete (newline-terminated) lines
none of which trims to the delimiter. -/
inductive CompleteNoDelim : List Char → Prop where
  | nil : CompleteNoDelim []
  | cons (l rest : List Char) :
      '\n' ∉ l → trimSpace (l ++ ['\n']) ≠ delimLine →
      CompleteNoDelim rest → CompleteNoDelim (l ++ '\n' :: rest)

/-- A buffer none of whose lines — complete lines and a possible final
partial line — trims to the delimiter. -/
inductive BodyOnly : List Char → Prop where
  | nil : BodyOnly []
  | last (l : List Char) : '\n' ∉ l → trimSpace l ≠ delimLine → BodyOnly l
  | cons (l rest : List Char) :
      '\n' ∉ l → trimSpace (l ++ ['\n']) ≠ delimLine →
      BodyOnly rest → BodyOnly (l ++ '\n' :: rest)

/-! ## Substring occurrence (for error-message facts) -/

/-- `leadsWith xs ys`: `xs` is an initial segment of `ys`. -/
def leadsWith : List Char → List Char → Bool
  | [], _ => true
  | _ :: _, [] => false
  | x :: xs, y :: ys => x = y && leadsWith xs ys

/-- `occursWithin xs ys`: `xs` occurs contiguously inside `ys`. -/
def occursWithin (xs : List Char) : List Char → Bool
  | [] => leadsWith xs []
  | l@(_ :: rest) => leadsWith xs l || occursWithin xs rest

/-! ## Characterization of the delimiter scan -/

theorem scanAux_append_no_nl :
    ∀ (l cs acc : List Char) (i : Bool) (s p : Nat), '\n' ∉ l →
      scanAux (l ++ cs) acc i s p = scanAux cs (l.reverse ++ acc) i s (p + l.length)
  | [], cs, acc, i, s, p, _ => by simp
  | c :: l, cs, acc, i, s, p, h => by
    have hc : ¬(c = '\n') := by
      intro e
      exact h (by simp [e])
    have hl : '\n' ∉ l := fun m => h (List.mem_cons_of_mem _ m)
    have e1 : l.reverse ++ (c :: acc) = (c :: l).reverse ++ acc := by simp
    have e2 : p + 1 + l.length = p + (c :: l).length := by
      simp only [List.length_cons]
      omega
    simp only [List.cons_append, scanAux, if_neg hc, List.append_eq]
    rw [scanAux_append_no_nl l cs (c :: acc) i s (p + 1) hl, e1, e2]

theorem scanAux_line_step (l cs : List Char) (i : Bool) (s p : Nat) (h : '\n' ∉ l) :
    scanAux (l ++ '\n' :: cs) [] i s p =
      if trimSpace (l ++ ['\n']) ≠ delimLine then scanAux cs [] i s (p + l.length + 1)
      else if i = false then scanAux cs [] true (p + l.length + 1) (p + l.length + 1)
      else (true, s, p + l.length + 1) := by
  rw [scanAux_append_no_nl l ('\n' :: cs) [] i s p h]
  simp only [List.append_nil, scanAux, List.reverse_cons, List.reverse_reverse,
    eq_self_iff_true, if_true, ite_true]

theorem scanAux_skip {u : List Char} (h : CompleteNoDelim u) :
    ∀ (cs : List Char) (i : Bool) (s p : Nat),
      scanAux (u ++ cs) [] i s p = scanAux cs [] i s (p + u.length) := by
  induction h with
  | nil =>
    intro cs i s p
    simp
  | cons l rest hnl hnd _hrest ih =>
    intro cs i s p
    have e0 : (l ++ '\n' :: rest) ++ cs = l ++ '\n' :: (rest ++ cs) := by simp
    rw [e0, scanAux_line_step l (rest ++ cs) i s p hnl, if_pos hnd, ih]
    have e : p + l.length + 1 + rest.length = p + (l ++ '\n' :: rest).length := by
      simp only [List.length_append, List.length_cons]
      omega
    rw [e]

theorem scanAux_bodyOnly {u : List Char} (h : BodyOnly u) :
    ∀ (i : Bool) (s p : Nat), scanAux u [] i s p = (i, s, 0) := by
  induction h with
  | nil =>
    intro i s p
    simp [scanAux]
  | last l hnl _hnd =>
    intro i s p
    have := scanAux_append_no_nl l [] [] i s p hnl
    simpa [scanAux] using this
  | cons l rest hnl hnd _hrest ih =>
    intro i s p
    rw [scanAux_line_step l rest i s p hnl, if_pos hnd, ih]

/-- A buffer made only of non-delimiter lines never opens a front-matter
region: the scan exits with the zero state. -/
theorem fmScan_noFM {b : List Char} (h : BodyOnly b) : fmScan b = (false, 0, 0) :=
  scanAux_bodyOnly h false 0 0

/-- An opening delimiter line with no closing delimiter line before end of
input: the scan exits opened, with the start index just after the opening
line and the end index still zero. -/
theorem fmScan_unclosed {pre ol tail : List Char}
    (hpre : CompleteNoDelim pre) (hol : '\n' ∉ ol)
    (hod : trimSpace (ol ++ ['\n']) = delimLine) (htail : BodyOnly tail) :
    fmScan (pre ++ ol ++ '\n' :: tail) = (true, pre.length + ol.length + 1, 0) := by
  unfold fmScan
  rw [show pre ++ ol ++ '\n' :: tail = pre ++ (ol ++ '\n' :: tail) from by simp]
  rw [scanAux_skip hpre]
  simp only [Nat.zero_add]
  rw [scanAux_line_step ol tail false 0 pre.length hol,
    if_neg (not_not_intro hod), if_pos rfl, scanAux_bodyOnly htail]

/-- Both delimiter lines present: the scan exits closed, the start index
just after the opening line, the end index just after the closing line. -/
theorem fmScan_closed {pre ol yaml cl : List Char} (rest : List Char)
    (hpre : CompleteNoDelim pre) (hol : '\n' ∉ ol)
    (hod : trimSpace (ol ++ ['\n']) = delimLine)
    (hyaml : CompleteNoDelim yaml)
    (hcl : '\n' ∉ cl) (hcd : trimSpace (cl ++ ['\n']) = delimLine) :
    fmScan (pre ++ ol ++ '\n' :: (yaml ++ cl ++ '\n' :: rest)) =
      (true, pre.length + ol.length + 1,
        pre.length + ol.length + 1 + yaml.length + cl.length + 1) := by
  unfold fmScan
  rw [show pre ++ ol ++ '\n' :: (yaml ++ cl ++ '\n' :: rest) =
      pre ++ (ol ++ '\n' :: (yaml ++ (cl ++ '\n' :: rest))) from by simp]
  rw [scanAux_skip hpre]
  simp only [Nat.zero_add]
  rw [scanAux_line_step ol _ false 0 pre.length hol,
    if_neg (not_not_intro hod), if_pos rfl,
    scanAux_skip hyaml, scanAux_line_step cl rest true _ _ hcl,
    if_neg (not_not_intro hcd), if_neg (by simp)]

theorem drop_two_lines (pre ol rest : List Char) :
    (pre ++ ol ++ '\n' :: rest).drop (pre.length + ol.length + 1) = rest := by
  have e0 : pre ++ ol ++ '\n' :: rest = (pre ++ ol ++ ['\n']) ++ rest := by simp
  rw [e0, List.drop_left'
    (by simp only [List.length_append, List.length_cons, List.length_nil])]

theorem goSlice_closed (pre ol yaml cl rest : List Char) :
    goSlice (pre ++ ol ++ '\n' :: (yaml ++ cl ++ '\n' :: rest))
        (pre.length + ol.length + 1)
        (pre.length + ol.length + 1 + yaml.length + cl.length + 1) =
      yaml ++ cl ++ ['\n'] := by
  unfold goSlice
  have e0 : pre ++ ol ++ '\n' :: (yaml ++ cl ++ '\n' :: rest) =
      (pre ++ ol ++ ['\n']) ++ ((yaml ++ cl ++ ['\n']) ++ rest) := by simp
  rw [e0,
    List.drop_left'
      (by simp only [List.length_append, List.length_cons, List.length_nil]),
    List.take_left'
      (by simp only [List.length_append, List.length_cons, List.length_nil]; omega)]

theorem drop_closed (pre ol yaml cl rest : List Char) :
    (pre ++ ol ++ '\n' :: (yaml ++ cl ++ '\n' :: rest)).drop
        (pre.length + ol.length + 1 + yaml.length + cl.length + 1) = rest := by
  have e0 : pre ++ ol ++ '\n' :: (yaml ++ cl ++ '\n' :: rest) =
      ((pre ++ ol ++ ['\n']) ++ (yaml ++ cl ++ ['\n'])) ++ rest := by simp
  rw [e0, List.drop_left'
    (by simp only [List.length_append, List.length_cons, List.length_nil]; omega)]

/-! ## Dispatch lemmas for `FromText` -/

theorem FromText_bool_step (f : DefaultPropertyFactory) (parseAny : String → Option GoTime)
    (name value : String) (options : List FactoryOption) (flag : Bool)
    (h : goParseBool value = some flag) :
    f.FromText parseAny name value options = f.FromAny name (.bool flag) options := by
  unfold DefaultPropertyFactory.FromText
  rw [h]

theorem FromText_time_step (f : DefaultPropertyFactory) (parseAny : String → Option GoTime)
    (name value : String) (options : List FactoryOption) (t : GoTime)
    (h1 : goParseBool value = none) (h2 : parseAny value = some t) :
    f.FromText parseAny name value options = f.FromAny name (.time t) options := by
  unfold DefaultPropertyFactory.FromText
  rw [h1, h2]

theorem FromText_int64_step (f : DefaultPropertyFactory) (parseAny : String → Option GoTime)
    (name value : String) (options : List FactoryOption) (n : Int)
    (h1 : goParseBool value = none) (h2 : parseAny value = none)
    (h3 : goParseInt64 value = some n) :
    f.FromText parseAny name value options = f.FromAny name (.int64 n) options := by
  unfold DefaultPropertyFactory.FromText
  rw [h1, h2, h3]

theorem FromText_text_step (f : DefaultPropertyFactory) (parseAny : String → Option GoTime)
    (name value : String) (options : List FactoryOption)
    (h1 : goParseBool value = none) (h2 : parseAny value = none)
    (h3 : goParseInt64 value = none) :
    f.FromText parseAny name value options = f.FromAny name (.str value) options := by
  unfold DefaultPropertyFactory.FromText
  rw [h1, h2, h3]

/-! ## Substring lemmas for the unknown-type message -/

theorem leadsWith_self_append : ∀ (m w : List Char), leadsWith m (m ++ w) = true
  | [], _ => rfl
  | c :: m, w => by
    simp [leadsWith, leadsWith_self_append m w]

theorem occursWithin_nil_left : ∀ (ys : List Char), occursWithin [] ys = true
  | [] => rfl
  | _ :: _ => by simp [occursWithin, leadsWith]

theorem occursWithin_middle : ∀ (u m w : List Char), occursWithin m (u ++ (m ++ w)) = true
  | [], m, w => by
    cases m with
    | nil => simpa using occursWithin_nil_left w
    | cons c m' =>
      have h := leadsWith_self_append (c :: m') w
      simp only [List.nil_append]
      rw [show (c :: m') ++ w = c :: (m' ++ w) from rfl] at h
      simp [occursWithin, h]
  | y :: u', m, w => by
    simp [occursWithin, occursWithin_middle u' m w]

/-! ## Claim theorems: the property factory -/

/-- C1: `FromText` classifies a raw string by trying, in this exact
precedence with fallback on failure, (1) boolean literal, (2) date/time
in a commonly recognized format (the external date parser `parseAny`),
(3) base-10 64-bit integer, (4) plain text.  In particular, for every
name, "true" and "false" give a Flag property and, since "221" is not a
recognized date (`parseAny "221" = none`), "221" gives a Cardinal
property of value 221. -/
theorem C1_fromText_precedence :
    (∀ (parseAny : String → Option GoTime) (name : String),
        ThePropertyFactory.FromText parseAny name "true" []
            = (some (.DefaultFlagProperty name true), true, none)
      ∧ ThePropertyFactory.FromText parseAny name "false" []
            = (some (.DefaultFlagProperty name false), true, none))
    ∧ (∀ (parseAny : String → Option GoTime) (name : String), parseAny "221" = none →
        ThePropertyFactory.FromText parseAny name "221" []
          = (some (.DefaultCardinalProperty name 221), true, none))
    ∧ (∀ (f : DefaultPropertyFactory) (parseAny : String → Option GoTime)
          (name value : String) (options : List FactoryOption) (flag : Bool),
        goParseBool value = some flag →
        f.FromText parseAny name value options = f.FromAny name (.bool flag) options)
    ∧ (∀ (f : DefaultPropertyFactory) (parseAny : String → Option GoTime)
          (name value : String) (options : List FactoryOption) (t : GoTime),
        goParseBool value = none → parseAny value = some t →
        f.FromText parseAny name value options = f.FromAny name (.time t) options)
    ∧ (∀ (f : DefaultPropertyFactory) (parseAny : String → Option GoTime)
          (name value : String) (options : List FactoryOption) (n : Int),
        goParseBool value = none → parseAny value = none → goParseInt64 value = some n →
        f.FromText parseAny name value options = f.FromAny name (.int64 n) options)
    ∧ (∀ (f : DefaultPropertyFactory) (parseAny : String → Option GoTime)
          (name value : String) (options : List FactoryOption),
        goParseBool value = none → parseAny value = none → goParseInt64 value = none →
        f.FromText parseAny name value options = f.FromAny name (.str value) options) :=
  ⟨fun _ _ => ⟨rfl, rfl⟩,
   fun parseAny name h =>
     (FromText_int64_step ThePropertyFactory parseAny name "221" [] 221 rfl h rfl).trans rfl,
   FromText_bool_step, FromText_time_step, FromText_int64_step, FromText_text_step⟩

/-- C1 witness: with a date parser rejecting "221", the factory classifies
"221" as Cardinal 221. -/
theorem C1_fromText_precedence_witness :
    ThePropertyFactory.FromText (fun _ => none) "num" "221" []
      = (some (.DefaultCardinalProperty "num" 221), true, none) :=
  C1_fromText_precedence.2.1 (fun _ => none) "num" rfl

/-- C4 (amended): `FromAny` turns exactly the dynamic types `int` and
`int64` into Cardinal properties (an `int` through the identity
`int64(value)` conversion); the other integer widths fall into the
unknown-type path and, absent custom creators, fail with the
unknown-type error. -/
theorem C4_integer_widths :
    (∀ (name : String) (n : Int),
        ThePropertyFactory.FromAny name (.int n) []
          = (some (.DefaultCardinalProperty name n), true, none))
    ∧ (∀ (name : String) (n : Int),
        ThePropertyFactory.FromAny name (.int64 n) []
          = (some (.DefaultCardinalProperty name n), true, none))
    ∧ (∀ (name : String) (n : Int),
        ThePropertyFactory.FromAny name (.int8 n) []
            = (none, false, some (unknownTypeErr name (.int8 n)))
        ∧ ThePropertyFactory.FromAny name (.int16 n) []
            = (none, false, some (unknownTypeErr name (.int16 n)))
        ∧ ThePropertyFactory.FromAny name (.int32 n) []
            = (none, false, some (unknownTypeErr name (.int32 n)))) :=
  ⟨fun _ _ => rfl, fun _ _ => rfl, fun _ _ => ⟨rfl, rfl, rfl⟩⟩

/-- C4 counterexample: an `int32` value is not turned into a Cardinal
property; absent custom creators the call fails with the unknown-type
error. -/
theorem C4_integer_widths_counterexample :
    ThePropertyFactory.FromAny "n" (.int32 221) []
      = (none, false,
         some "Unable to add \"n\" property, type int32 is not known: 221") := by
  decide

/-- C6: for each of the five supported primitive kinds at its canonical
dynamic type (string, ordered string list, bool, 64-bit integer,
timestamp), `FromAny` with no hooks configured accepts without error and
`AnyValue` on the built property returns the original value exactly,
list order included. -/
theorem C6_fromAny_anyValue_roundtrip (name : String) (v : GoValue)
    (h : isCanonicalKind v = true) :
    ((ThePropertyFactory.FromAny name v []).1).map Property.AnyValue = some v
    ∧ (ThePropertyFactory.FromAny name v []).2.1 = true
    ∧ (ThePropertyFactory.FromAny name v []).2.2 = none := by
  cases v <;> first
    | exact ⟨rfl, rfl, rfl⟩
    | simp [isCanonicalKind] at h

theorem unknownTypeErr_names_property (name : String) (v : GoValue) :
    occursWithin name.toList (unknownTypeErr name v).toList = true := by
  have h1 : (unknownTypeErr name v).toList =
      ("Unable to add " ++ "\"").toList
        ++ (name.toList
            ++ ("\"" ++ " property, type " ++ goTypeName v
                ++ " is not known: " ++ goPlusV v).toList) := by
    simp only [unknownTypeErr, goQuote, String.toList, String.data_append, List.append_assoc]
  rw [h1]
  exact occursWithin_middle _ _ _

theorem unknownTypeErr_names_type (name : String) (v : GoValue) :
    occursWithin (goTypeName v).toList (unknownTypeErr name v).toList = true := by
  have h1 : (unknownTypeErr name v).toList =
      ("Unable to add " ++ "\"" ++ name ++ "\"" ++ " property, type ").toList
        ++ ((goTypeName v).toList ++ (" is not known: " ++ goPlusV v).toList) := by
    simp only [unknownTypeErr, goQuote, String.toList, String.data_append, List.append_assoc]
  rw [h1]
  exact occursWithin_middle _ _ _

/-- C5: on a value of unrecognized dynamic type the factory consults, in
order, the first custom-creator function/handler found in the per-call
option bag, then the factory-level custom creator configured at
construction (handler before function); with none configured the call
fails with `(nil, false, error)` whose message names the property and the
observed type.  All paths are total functions — no panic. -/
theorem C5_unknown_type_path :
    (∀ (f : DefaultPropertyFactory) (name : String) (v : GoValue)
        (options : List FactoryOption),
        findCreator options = none → f.CustomCreator = none → f.CustomCreatorFunc = none →
        f.handleUnknownType name v options = (none, false, some (unknownTypeErr name v))
        ∧ occursWithin name.toList (unknownTypeErr name v).toList = true
        ∧ occursWithin (goTypeName v).toList (unknownTypeErr name v).toList = true)
    ∧ (∀ (f : DefaultPropertyFactory) (name : String) (v : GoValue)
        (options : List FactoryOption) (g : String → GoValue → FactoryResult),
        findCreator options = some g →
        f.handleUnknownType name v options = g name v)
    ∧ (∀ (f : DefaultPropertyFactory) (name : String) (v : GoValue)
        (options : List FactoryOption) (h' : String → GoValue → FactoryResult),
        findCreator options = none → f.CustomCreator = some h' →
        f.handleUnknownType name v options = h' name v)
    ∧ (∀ (f : DefaultPropertyFactory) (name : String) (v : GoValue)
        (options : List FactoryOption) (h' : String → GoValue → FactoryResult),
        findCreator options = none → f.CustomCreator = none → f.CustomCreatorFunc = some h' →
        f.handleUnknownType name v options = h' name v)
    ∧ (∀ (f : DefaultPropertyFactory) (name : String) (v : GoValue)
        (options : List FactoryOption),
        isSupported v = false →
        f.FromAny name v options = f.handleUnknownType name v options) := by
  refine ⟨?_, ?_, ?_, ?_, ?_⟩
  · intro f name v options h1 h2 h3
    refine ⟨?_, unknownTypeErr_names_property name v, unknownTypeErr_names_type name v⟩
    unfold DefaultPropertyFactory.handleUnknownType
    rw [h1, h2, h3]
  · intro f name v options g h1
    unfold DefaultPropertyFactory.handleUnknownType
    rw [h1]
  · intro f name v options h' h1 h2
    unfold DefaultPropertyFactory.handleUnknownType
    rw [h1, h2]
  · intro f name v options h' h1 h2 h3
    unfold DefaultPropertyFactory.handleUnknownType
    rw [h1, h2, h3]
  · intro f name v options h
    cases v <;> first | rfl | simp [isSupported] at h

/-- C5 witness: with no creators anywhere, an unknown-typed value yields
the failure triple whose message contains the property name and the
observed type name. -/
theorem C5_unknown_type_path_witness :
    ThePropertyFactory.handleUnknownType "n" (.other "mapstruct" "val") []
        = (none, false, some (unknownTypeErr "n" (.other "mapstruct" "val")))
    ∧ occursWithin "n".toList (unknownTypeErr "n" (.other "mapstruct" "val")).toList = true
    ∧ occursWithin "mapstruct".toList
        (unknownTypeErr "n" (.other "mapstruct" "val")).toList = true :=
  C5_unknown_type_path.1 ThePropertyFactory "n" (.other "mapstruct" "val") [] rfl rfl rfl

/-- C6 witness: the round trip at a concrete two-element text list. -/
theorem C6_fromAny_anyValue_roundtrip_witness :
    isCanonicalKind (.strList ["a", "b"]) = true
    ∧ (((ThePropertyFactory.FromAny "k" (.strList ["a", "b"]) []).1).map Property.AnyValue
          = some (.strList ["a", "b"])
        ∧ (ThePropertyFactory.FromAny "k" (.strList ["a", "b"]) []).2.1 = true
        ∧ (ThePropertyFactory.FromAny "k" (.strList ["a", "b"]) []).2.2 = none) :=
  ⟨by decide, C6_fromAny_anyValue_roundtrip "k" (.strList ["a", "b"]) (by decide)⟩

/-! ## Claim theorems: the collection -/

/-- C3 (code bug in the source): `AddProperty` increments the size counter
unconditionally, also when the store overwrote the entry already present
under the same name, so a duplicate insertion *does* change `Size`:
after adding the same named property twice the backing map holds one
entry while `Size` reports 2 — contradicting `Size`'s own documentation
("the number of items in the list") and the spec's uniqueness
invariant. -/
theorem C3_duplicate_add_size_drift :
    ((({ pf := ThePropertyFactory } : Default).AddProperty
        (.DefaultTextProperty "a" "x")).1.Size = 1)
    ∧ (((({ pf := ThePropertyFactory } : Default).AddProperty
        (.DefaultTextProperty "a" "x")).1.AddProperty
          (.DefaultTextProperty "a" "x")).1.Size = 2)
    ∧ (((({ pf := ThePropertyFactory } : Default).AddProperty
        (.DefaultTextProperty "a" "x")).1.AddProperty
          (.DefaultTextProperty "a" "x")).1.entries.length = 1) :=
  ⟨rfl, rfl, rfl⟩

/-- A collection whose add policy is `pol`, with an add event configured,
as built over the hook-free factory. -/
def vetoCollection (pol : Property → Property × Bool × Option String) : Default :=
  { pf := ThePropertyFactory, addPolicy := some pol, hasAddEvent := true }

theorem AddProperty_veto (st : Default) (pol : Property → Property × Bool × Option String)
    (hpol : st.addPolicy = some pol) (p q : Property) (hq : pol p = (q, false, none)) :
    st.AddProperty p = (st, (some q, false, none)) := by
  simp [Default.AddProperty, hpol, hq]

theorem vetoCollection_AddProperty (pol : Property → Property × Bool × Option String)
    (hveto : ∀ p, ∃ q, pol p = (q, false, none)) (p : Property) :
    ∃ q, (vetoCollection pol).AddProperty p = (vetoCollection pol, (some q, false, none)) := by
  obtain ⟨q, hq⟩ := hveto p
  exact ⟨q, AddProperty_veto (vetoCollection pol) pol rfl p q hq⟩

theorem FromAny_noHooks_supported (name : String) (v : GoValue)
    (options : List FactoryOption) (h : isSupported v = true) :
    ∃ pr, ThePropertyFactory.FromAny name v options = (some pr, true, none) := by
  cases v <;> first | exact ⟨_, rfl⟩ | simp [isSupported] at h

theorem FromText_noHooks (parseAny : String → Option GoTime) (name value : String)
    (options : List FactoryOption) :
    ∃ pr, ThePropertyFactory.FromText parseAny name value options = (some pr, true, none) := by
  cases hb : goParseBool value with
  | some flag =>
    rw [FromText_bool_step _ _ _ _ _ _ hb]
    exact ⟨_, rfl⟩
  | none =>
    cases hp : parseAny value with
    | some t =>
      rw [FromText_time_step _ _ _ _ _ _ hb hp]
      exact ⟨_, rfl⟩
    | none =>
      cases hi : goParseInt64 value with
      | some n =>
        rw [FromText_int64_step _ _ _ _ _ _ hb hp hi]
        exact ⟨_, rfl⟩
      | none =>
        rw [FromText_text_step _ _ _ _ _ hb hp hi]
        exact ⟨_, rfl⟩

theorem AddChecked_noAllow_eq (st : Default) (name : String) (v : GoValue)
    (options : List FactoryOption) (pr : Property)
    (hpf : st.pf = ThePropertyFactory)
    (hpr : ThePropertyFactory.FromAny name v options = (some pr, true, none)) :
    st.AddChecked name v none options = some (st.AddProperty pr) := by
  unfold Default.AddChecked
  rw [hpf, hpr]
  rfl

theorem AddParsedChecked_noAllow_eq (st : Default) (parseAny : String → Option GoTime)
    (name value : String) (options : List FactoryOption) (pr : Property)
    (hpf : st.pf = ThePropertyFactory)
    (hpr : ThePropertyFactory.FromText parseAny name value options = (some pr, true, none)) :
    st.AddParsedChecked parseAny name value none options = some (st.AddProperty pr) := by
  unfold Default.AddParsedChecked
  rw [hpf, hpr]
  rfl

theorem vetoCollection_addMapLoop (pol : Property → Property × Bool × Option String)
    (hveto : ∀ p, ∃ q, pol p = (q, false, none)) (options : List FactoryOption) :
    ∀ (items : List (String × GoValue)) (c : Nat),
      (∀ it ∈ items, isSupported it.2 = true) →
      addMapLoop none options (vetoCollection pol) items c = some (vetoCollection pol, c, none)
  | [], _, _ => rfl
  | (name, v) :: rest, c, hall => by
    obtain ⟨pr, hpr⟩ := FromAny_noHooks_supported name v options (hall (name, v) (by simp))
    obtain ⟨q, hq⟩ := vetoCollection_AddProperty pol hveto pr
    have h1 := AddChecked_noAllow_eq (vetoCollection pol) name v options pr rfl hpr
    unfold addMapLoop
    rw [h1, hq]
    exact vetoCollection_addMapLoop pol hveto options rest c
      (fun it hit => hall it (by simp [hit]))

theorem vetoCollection_addTextMapLoop (pol : Property → Property × Bool × Option String)
    (hveto : ∀ p, ∃ q, pol p = (q, false, none))
    (parseAny : String → Option GoTime) (options : List FactoryOption) :
    ∀ (items : List (String × String)) (c : Nat),
      addTextMapLoop parseAny none options (vetoCollection pol) items c
        = some (vetoCollection pol, c, none)
  | [], _ => rfl
  | (name, value) :: rest, c => by
    obtain ⟨pr, hpr⟩ := FromText_noHooks parseAny name value options
    obtain ⟨q, hq⟩ := vetoCollection_AddProperty pol hveto pr
    have h1 := AddParsedChecked_noAllow_eq (vetoCollection pol) parseAny name value options pr rfl hpr
    unfold addTextMapLoop
    rw [h1, hq]
    exact vetoCollection_addTextMapLoop pol hveto parseAny options rest c

/-- C9: a collection constructed (`newDefaultProperties`) with an add
policy that vetoes every insertion (no error) rejects every insertion
attempt — `AddProperty`, `Add` on any supported value, `AddParsed` on any
text, and every entry of `AddMap`/`AddTextMap` — with accepted=false and
no error, leaving the collection exactly as it was; in particular the
collection stays empty, its size stays zero and the configured add event
never fires (the event log stays empty). -/
theorem C9_always_veto (pol : Property → Property × Bool × Option String)
    (hveto : ∀ p, ∃ q, pol p = (q, false, none)) :
    newDefaultProperties ThePropertyFactory [.addPolicy pol, .addEvent] = vetoCollection pol
    ∧ (∀ p : Property, ∃ q, (vetoCollection pol).AddProperty p
        = (vetoCollection pol, (some q, false, none)))
    ∧ (∀ (name : String) (v : GoValue) (options : List FactoryOption),
        isSupported v = true →
        ∃ q, (vetoCollection pol).Add name v options
          = some (vetoCollection pol, (some q, false, none)))
    ∧ (∀ (parseAny : String → Option GoTime) (name value : String)
        (options : List FactoryOption),
        ∃ q, (vetoCollection pol).AddParsed parseAny name value options
          = some (vetoCollection pol, (some q, false, none)))
    ∧ (∀ (items : List (String × GoValue)) (options : List FactoryOption),
        (∀ it ∈ items, isSupported it.2 = true) →
        (vetoCollection pol).AddMap items none options = some (vetoCollection pol, 0, none))
    ∧ (∀ (parseAny : String → Option GoTime) (items : List (String × String))
        (options : List FactoryOption),
        (vetoCollection pol).AddTextMap parseAny items none options
          = some (vetoCollection pol, 0, none))
    ∧ (vetoCollection pol).Size = 0
    ∧ (vetoCollection pol).entries = []
    ∧ (vetoCollection pol).eventLog = [] := by
  refine ⟨rfl, vetoCollection_AddProperty pol hveto, ?_, ?_, ?_, ?_, rfl, rfl, rfl⟩
  · intro name v options h
    obtain ⟨pr, hpr⟩ := FromAny_noHooks_supported name v options h
    obtain ⟨q, hq⟩ := vetoCollection_AddProperty pol hveto pr
    refine ⟨q, ?_⟩
    unfold Default.Add
    rw [AddChecked_noAllow_eq (vetoCollection pol) name v options pr rfl hpr, hq]
  · intro parseAny name value options
    obtain ⟨pr, hpr⟩ := FromText_noHooks parseAny name value options
    obtain ⟨q, hq⟩ := vetoCollection_AddProperty pol hveto pr
    refine ⟨q, ?_⟩
    unfold Default.AddParsed
    rw [AddParsedChecked_noAllow_eq (vetoCollection pol) parseAny name value options pr rfl hpr, hq]
  · intro items options hall
    exact vetoCollection_addMapLoop pol hveto options items 0 hall
  · intro parseAny items options
    exact vetoCollection_addTextMapLoop pol hveto parseAny options items 0

/-- C9 witness: the identity veto policy at a concrete one-entry text map
and the resulting zero size. -/
theorem C9_always_veto_witness :
    ((vetoCollection (fun p => (p, false, none))).AddTextMap (fun _ => none)
        [("a", "x")] none [] = some (vetoCollection (fun p => (p, false, none)), 0, none))
    ∧ (vetoCollection (fun p => (p, false, none))).Size = 0 :=
  ⟨(C9_always_veto (fun p => (p, false, none)) (fun p => ⟨p, rfl⟩)).2.2.2.2.2.1
      (fun _ => none) [("a", "x")] [],
   (C9_always_veto (fun p => (p, false, none)) (fun p => ⟨p, rfl⟩)).2.2.2.2.2.2.1⟩

/-! ## Claim theorems: front-matter extraction -/

/-- C7: a buffer none of whose lines trims to the delimiter yields the
entire unmodified input as body, no collection, a zero count and no
error, whatever the decoders, hooks and the smart-parse flag. -/
theorem C7_no_delimiter_full_body (f : DefaultPropertiesFactory)
    (parseAny : String → Option GoTime)
    (ystr : List Char → Option (List (String × String)))
    (yany : List Char → Option (List (String × GoValue)))
    (b : List Char) (smartParseFM : Bool)
    (allow : Option AllowAddFunc) (allowText : Option AllowAddTextFunc)
    (options : List FactoryOption) (h : BodyOnly b) :
    f.fromYAMLFrontMatter parseAny ystr yany b smartParseFM allow allowText options
      = some (some b, none, 0, none) := by
  unfold DefaultPropertiesFactory.fromYAMLFrontMatter
  rw [fmScan_noFM h]
  rfl

/-- C7 witness: a two-line buffer with no delimiter line. -/
theorem C7_no_delimiter_full_body_witness :
    ThePropertiesFactory.fromYAMLFrontMatter (fun _ => none) (fun _ => none) (fun _ => none)
        ("hello\nworld".toList) true none none []
      = some (some ("hello\nworld".toList), none, 0, none) :=
  C7_no_delimiter_full_body ThePropertiesFactory (fun _ => none) (fun _ => none) (fun _ => none)
    ("hello\nworld".toList) true none none []
    (by exact BodyOnly.cons "hello".toList "world".toList (by decide) (by decide)
                (BodyOnly.last "world".toList (by decide) (by decide)))

/-- C8: an opening delimiter line never followed by a closing delimiter
line yields a nil body, no collection, a zero count and the diagnostic
error carrying opened=true, the start index just after the opening line,
and end index 0. -/
theorem C8_unclosed_front_matter (f : DefaultPropertiesFactory)
    (parseAny : String → Option GoTime)
    (ystr : List Char → Option (List (String × String)))
    (yany : List Char → Option (List (String × GoValue)))
    (smartParseFM : Bool)
    (allow : Option AllowAddFunc) (allowText : Option AllowAddTextFunc)
    (options : List FactoryOption)
    (pre ol tail : List Char)
    (hpre : CompleteNoDelim pre) (hol : '\n' ∉ ol)
    (hod : trimSpace (ol ++ ['\n']) = delimLine) (htail : BodyOnly tail) :
    f.fromYAMLFrontMatter parseAny ystr yany (pre ++ ol ++ '\n' :: tail)
        smartParseFM allow allowText options
      = some (none, none, 0, some (goFrontMatterErr true (pre.length + ol.length + 1) 0)) := by
  unfold DefaultPropertiesFactory.fromYAMLFrontMatter
  rw [fmScan_unclosed hpre hol hod htail]
  rfl

/-- C8 witness: the unclosed input of the repository's own test, whose
start index is 5; the produced message is exactly the one the test
expects. -/
theorem C8_unclosed_front_matter_witness :
    (ThePropertiesFactory.fromYAMLFrontMatter (fun _ => none) (fun _ => none) (fun _ => none)
        ("\n---\ndescription: test description\n\ntest body\n".toList) false none none []
      = some (none, none, 0,
          some (goFrontMatterErr true ("\n".toList.length + "---".toList.length + 1) 0)))
    ∧ goFrontMatterErr true ("\n".toList.length + "---".toList.length + 1) 0
        = "Unexplained front matter parser error; insideFrontMatter: true, yamlStartIndex: 5, yamlEndIndex: 0" :=
  ⟨C8_unclosed_front_matter ThePropertiesFactory (fun _ => none) (fun _ => none) (fun _ => none)
      false none none [] "\n".toList "---".toList
      ("description: test description\n\ntest body\n".toList)
      (by exact CompleteNoDelim.cons [] [] (by decide) (by decide) CompleteNoDelim.nil)
      (by decide) (by decide)
      (by exact BodyOnly.cons "description: test description".toList ("\ntest body\n".toList)
                  (by decide) (by decide)
                  (BodyOnly.cons [] ("test body\n".toList) (by decide) (by decide)
                    (BodyOnly.cons "test body".toList [] (by decide) (by decide) BodyOnly.nil))),
   by decide⟩

/-- With both delimiter lines present, a successful string-map decode of
the region and any outcome of the bulk text insertion, the smart-parse
extraction returns the trimmed remainder as body, the (possibly
partially) filled collection, its count — and a nil error whatever the
bulk insertion's error was (the source assigns that error to a shadowed
variable). -/
theorem fromYAML_smart_closed (f : DefaultPropertiesFactory)
    (parseAny : String → Option GoTime)
    (ystr : List Char → Option (List (String × String)))
    (yany : List Char → Option (List (String × GoValue)))
    (pre ol yaml cl rest : List Char)
    (allow : Option AllowAddFunc) (allowText : Option AllowAddTextFunc)
    (options : List FactoryOption) (items : List (String × String))
    (st : Default) (count : Nat) (aderr : Option String)
    (hpre : CompleteNoDelim pre) (hol : '\n' ∉ ol)
    (hod : trimSpace (ol ++ ['\n']) = delimLine)
    (hyaml : CompleteNoDelim yaml) (hcl : '\n' ∉ cl)
    (hcd : trimSpace (cl ++ ['\n']) = delimLine)
    (hdec : ystr (yaml ++ cl ++ ['\n']) = some items)
    (hadd : (f.EmptyMutable options).AddTextMap parseAny items allowText options
        = some (st, count, aderr)) :
    f.fromYAMLFrontMatter parseAny ystr yany (pre ++ ol ++ '\n' :: (yaml ++ cl ++ '\n' :: rest))
        true allow allowText options
      = some (some (trimSpace rest), some st, count, none) := by
  unfold DefaultPropertiesFactory.fromYAMLFrontMatter
  rw [fmScan_closed rest hpre hol hod hyaml hcl hcd]
  dsimp only
  rw [if_neg (show ¬(pre.length + ol.length + 1 + yaml.length + cl.length + 1 = 0) by omega)]
  rw [goSlice_closed pre ol yaml cl rest, hdec]
  try dsimp only
  rw [hadd]
  try dsimp only
  rw [drop_closed pre ol yaml cl rest]
  rfl

/-- C2 (amended): in a closed front-matter region the byte range handed
to the YAML decoder runs from just after the opening delimiter line to
just after the closing delimiter line — inclusive of the closing
delimiter line itself — and the returned body is the bytes after the
closing delimiter line trimmed of leading and trailing whitespace. -/
theorem C2_front_matter_range_amended (pre ol yaml cl rest : List Char)
    (hpre : CompleteNoDelim pre) (hol : '\n' ∉ ol)
    (hod : trimSpace (ol ++ ['\n']) = delimLine)
    (hyaml : CompleteNoDelim yaml) (hcl : '\n' ∉ cl)
    (hcd : trimSpace (cl ++ ['\n']) = delimLine) :
    fmScan (pre ++ ol ++ '\n' :: (yaml ++ cl ++ '\n' :: rest))
        = (true, pre.length + ol.length + 1,
           pre.length + ol.length + 1 + yaml.length + cl.length + 1)
    ∧ yamlRegion (pre ++ ol ++ '\n' :: (yaml ++ cl ++ '\n' :: rest))
        = some (yaml ++ cl ++ ['\n'])
    ∧ (∀ (f : DefaultPropertiesFactory) (parseAny : String → Option GoTime)
        (ystr : List Char → Option (List (String × String)))
        (yany : List Char → Option (List (String × GoValue)))
        (allow : Option AllowAddFunc) (allowText : Option AllowAddTextFunc)
        (options : List FactoryOption) (items : List (String × String))
        (st : Default) (count : Nat) (aderr : Option String),
        ystr (yaml ++ cl ++ ['\n']) = some items →
        (f.EmptyMutable options).AddTextMap parseAny items allowText options
            = some (st, count, aderr) →
        f.fromYAMLFrontMatter parseAny ystr yany
            (pre ++ ol ++ '\n' :: (yaml ++ cl ++ '\n' :: rest)) true allow allowText options
          = some (some (trimSpace rest), some st, count, none)) := by
  refine ⟨fmScan_closed rest hpre hol hod hyaml hcl hcd, ?_, ?_⟩
  · unfold yamlRegion
    rw [fmScan_closed rest hpre hol hod hyaml hcl hcd]
    dsimp only
    rw [if_pos ⟨rfl, by omega⟩, goSlice_closed pre ol yaml cl rest]
  · intro f parseAny ystr yany allow allowText options items st count aderr hdec hadd
    exact fromYAML_smart_closed f parseAny ystr yany pre ol yaml cl rest allow allowText
      options items st count aderr hpre hol hod hyaml hcl hcd hdec hadd

/-- C2 counterexample: the range handed to the YAML decoder *includes*
the closing delimiter line — it is not cut at the position of that line
as the claim states. -/
theorem C2_front_matter_range_counterexample :
    yamlRegion ("---\na: 1\n---\nbody".toList) = some ("a: 1\n---\n".toList)
    ∧ "a: 1\n---\n".toList ≠ "a: 1\n".toList := by
  decide

/-- C2 witness: the amended range fact at a concrete buffer. -/
theorem C2_front_matter_range_amended_witness :
    yamlRegion ("---\na: 1\n---\nbody".toList)
        = some ("a: 1\n".toList ++ "---".toList ++ ['\n'])
    ∧ ("a: 1\n".toList ++ "---".toList ++ ['\n']) = "a: 1\n---\n".toList :=
  ⟨(C2_front_matter_range_amended [] "---".toList "a: 1\n".toList "---".toList "body".toList
      CompleteNoDelim.nil (by decide) (by decide)
      (by exact CompleteNoDelim.cons "a: 1".toList [] (by decide) (by decide) CompleteNoDelim.nil)
      (by decide) (by decide)).2.1,
   by decide⟩

/-- C10: with smart parsing on a closed region whose string map decodes,
an error from the bulk `AddTextMap` insertion is not propagated: the
extraction returns the trimmed body, the partially populated collection
and the partial count with a nil error. -/
theorem C10_addTextMap_error_not_propagated (f : DefaultPropertiesFactory)
    (parseAny : String → Option GoTime)
    (ystr : List Char → Option (List (String × String)))
    (yany : List Char → Option (List (String × GoValue)))
    (pre ol yaml cl rest : List Char)
    (allow : Option AllowAddFunc) (allowText : Option AllowAddTextFunc)
    (options : List FactoryOption) (items : List (String × String))
    (st : Default) (count : Nat) (e : String)
    (hpre : CompleteNoDelim pre) (hol : '\n' ∉ ol)
    (hod : trimSpace (ol ++ ['\n']) = delimLine)
    (hyaml : CompleteNoDelim yaml) (hcl : '\n' ∉ cl)
    (hcd : trimSpace (cl ++ ['\n']) = delimLine)
    (hdec : ystr (yaml ++ cl ++ ['\n']) = some items)
    (hadd : (f.EmptyMutable options).AddTextMap parseAny items allowText options
        = some (st, count, some e)) :
    f.fromYAMLFrontMatter parseAny ystr yany (pre ++ ol ++ '\n' :: (yaml ++ cl ++ '\n' :: rest))
        true allow allowText options
      = some (some (trimSpace rest), some st, count, none) :=
  fromYAML_smart_closed f parseAny ystr yany pre ol yaml cl rest allow allowText options
    items st count (some e) hpre hol hod hyaml hcl hcd hdec hadd

/-- A factory whose after-create hook fails every construction, so that
bulk insertion errors are observable. -/
def boomPropertyFactory : DefaultPropertyFactory :=
  { AfterCreateHookFunc := some (fun _ => (none, false, some "boom")) }

/-- The collection factory over `boomPropertyFactory`. -/
def boomPropertiesFactory : DefaultPropertiesFactory :=
  { PropFactory := boomPropertyFactory }

/-- C10 witness: the bulk insertion errors with "boom" and yet the
extraction returns that collection state, count 0 and a nil error. -/
theorem C10_addTextMap_error_not_propagated_witness :
    ((boomPropertiesFactory.EmptyMutable []).AddTextMap (fun _ => none) [("a", "x")] none []
        = some ({ pf := boomPropertyFactory }, 0, some "boom"))
    ∧ boomPropertiesFactory.fromYAMLFrontMatter (fun _ => none)
        (fun s => if s = "a: x\n---\n".toList then some [("a", "x")] else none)
        (fun _ => none)
        ("---\na: x\n---\nbody".toList) true none none []
      = some (some (trimSpace ("body".toList)), some ({ pf := boomPropertyFactory } : Default),
          0, none) :=
  ⟨rfl,
   C10_addTextMap_error_not_propagated boomPropertiesFactory (fun _ => none)
     (fun s => if s = "a: x\n---\n".toList then some [("a", "x")] else none)
     (fun _ => none)
     [] "---".toList "a: x\n".toList "---".toList "body".toList none none []
     [("a", "x")] { pf := boomPropertyFactory } 0 "boom"
     CompleteNoDelim.nil (by decide) (by decide)
     (by exact CompleteNoDelim.cons "a: x".toList [] (by decide) (by decide) CompleteNoDelim.nil)
     (by decide) (by decide) rfl rfl⟩

end properties
